import Mathlib

/-!
Shallow embedding of `autotyper/autotype.py` (the `AutotypeCommand` libcst
codemod) together with proofs about its annotation policy, scope tracking and
rule parsing.

Modelling conventions:
* Python lists used as stacks (`append` / `pop()` / `l[-1]`) are modelled as
  Lean lists with the top at the HEAD (an order-reversing but faithful
  representation of the stack discipline).
* Python strings are Lean `String`s; `str.split` / `str.rsplit` with a
  one-character separator are modelled on the character list.
* The libcst tree is modelled by the node kinds the codemod dispatches on
  (`FunctionDef`, `Lambda`, `Param`, `Return`, `Raise`, `Yield`) plus generic
  expression/statement containers for everything else; traversal is the
  depth-first visit/leave order of `VisitorBasedCodemodCommand`.
* `AddImportsVisitor.add_needed_import` is modelled by appending the requested
  `(module, symbol)` pair to a trace of import requests.
* Fallible Python code (tuple-unpacking `ValueError` in `NamedParam.make`) is
  modelled with `Option`.
-/

namespace Autotyping

/-- Python `s.split(sep)` for a one-character separator, on the character
list: splits at every occurrence, keeping empty pieces. -/
def splitOnChar (sep : Char) : List Char → List (List Char)
  | [] => [[]]
  | a :: rest =>
    let r := splitOnChar sep rest
    if a = sep then [] :: r
    else
      match r with
      | [] => [[a]]
      | h :: t => (a :: h) :: t

/-- `NamedParam` from the source: a parsed `name:module.TypeName` rule. -/
structure NamedParam where
  name : String
  module : String
  type_name : String
deriving Repr

/-- `NamedParam.make`: `name, type_path = input.split(":")` — a part count
other than two makes the tuple unpacking raise `ValueError`, modelled as
`none` — then `module, type_name = type_path.rsplit(".", maxsplit=1)`, which
raises (again `none`) when the type path holds no dot. -/
def NamedParam.make (input : String) : Option NamedParam :=
  match splitOnChar ':' input.toList with
  | [name, type_path] =>
    match (splitOnChar '.' type_path).reverse with
    | type_name :: m :: ms =>
      some ⟨String.mk name, String.mk (List.intercalate ['.'] (m :: ms).reverse),
            String.mk type_name⟩
    | _ => none
  | _ => none

/-- The mutable visitor state (`State` dataclass).  The three stacks keep
their top at the head of the list. -/
structure State where
  annotate_optionals : List NamedParam
  annotate_named_params : List NamedParam
  annotate_magics : Bool
  annotate_imprecise_magics : Bool
  none_return : Bool
  bool_param : Bool
  seen_return_statement : List Bool := [false]
  seen_raise_statement : List Bool := [false]
  seen_yield : List Bool := [false]
  in_lambda : Bool := false
deriving Repr

/-- `SIMPLE_MAGICS` table. -/
def SIMPLE_MAGICS : List (String × String) :=
  [("__str__", "str"), ("__repr__", "str"), ("__len__", "int"),
   ("__init__", "None"), ("__del__", "None"), ("__bool__", "bool"),
   ("__bytes__", "bytes"), ("__format__", "str"), ("__contains__", "bool"),
   ("__complex__", "complex"), ("__int__", "int"), ("__float__", "float"),
   ("__index__", "int")]

/-- `IMPRECISE_MAGICS` table. -/
def IMPRECISE_MAGICS : List (String × (String × String)) :=
  [("__iter__", ("typing", "Iterator")), ("__reversed__", ("typing", "Iterator")),
   ("__await__", ("typing", "Iterator"))]

/-- Python `stack[-1] = b` (assignment to the top frame); total on the empty
stack (where CPython would raise), which the seeded stacks never are. -/
def setTop : List Bool → Bool → List Bool
  | [], _ => []
  | _ :: t, b => b :: t

/-- Or a bit into the top frame; `setTop s true = orTop s true` and all
writes performed by the visitor set `true`, so every stack evolution is an
`orTop`. -/
def orTop : List Bool → Bool → List Bool
  | [], _ => []
  | h :: t, b => (h || b) :: t

/-- Trace of `AddImportsVisitor.add_needed_import` requests. -/
abbrev Imports := List (String × String)

/-- `AddImportsVisitor.add_needed_import(context, module, symbol)`. -/
def add_needed_import (imps : Imports) (module symbol : String) : Imports :=
  imps ++ [(module, symbol)]

mutual
/-- libcst expressions, restricted to the node kinds the codemod dispatches
on: `Name`, `Lambda`, `Yield`, `Subscript` (the shape `_annotate_param`
builds), and a generic container for every other expression kind. -/
inductive Expr where
  | name : String → Expr
  | lambdaE : List Param → Expr → Expr
  | yieldE : Option Expr → Expr
  | subscript : Expr → List Expr → Expr
  | otherE : List Expr → Expr
deriving Repr

/-- A libcst `Param`: name, optional annotation, optional default. -/
inductive Param where
  | mk : String → Option Expr → Option Expr → Param
deriving Repr
end

def Param.name : Param → String
  | .mk n _ _ => n

def Param.annotation : Param → Option Expr
  | .mk _ a _ => a

def Param.default : Param → Option Expr
  | .mk _ _ d => d

/-- `updated_node.with_changes` on the annotation field. -/
def Param.withAnnotation : Param → Option Expr → Param
  | .mk n _ d, a => .mk n a d

/-- libcst statements: `FunctionDef` (name, params, returns, body), `Return`,
`Raise`, an expression statement, and a generic compound statement
(`if`/`while`/`for`/`try`/`with`...) which holds expressions and a nested
body but — unlike a function definition — pushes no scope frame. -/
inductive Stmt where
  | functionDef : String → List Param → Option Expr → List Stmt → Stmt
  | ret : Option Expr → Stmt
  | raiseS : Option Expr → Stmt
  | exprS : Expr → Stmt
  | compound : List Expr → List Stmt → Stmt
deriving Repr

/-- `visit_FunctionDef`: push a fresh `False` frame on each stack. -/
def visit_FunctionDef (st : State) : State :=
  { st with
    seen_return_statement := false :: st.seen_return_statement,
    seen_raise_statement := false :: st.seen_raise_statement,
    seen_yield := false :: st.seen_yield }

/-- `visit_Return`: only a return WITH a value sets the top flag. -/
def visit_Return (st : State) (value : Option Expr) : State :=
  if value.isSome then
    { st with seen_return_statement := setTop st.seen_return_statement true }
  else st

/-- `visit_Raise`. -/
def visit_Raise (st : State) : State :=
  { st with seen_raise_statement := setTop st.seen_raise_statement true }

/-- `visit_Yield`. -/
def visit_Yield (st : State) : State :=
  { st with seen_yield := setTop st.seen_yield true }

/-- `visit_Lambda`: `self.state.in_lambda = True`. -/
def visit_Lambda (st : State) : State :=
  { st with in_lambda := true }

/-- `leave_Lambda`: `self.state.in_lambda = False` — unconditionally, NOT a
restore of the value saved on entry. -/
def leave_Lambda (st : State) : State :=
  { st with in_lambda := false }

/-- `AutotypeCommand._annotate_param`. -/
def _annotate_param (param : NamedParam) (updated_node : Param) (optional : Bool)
    (imps : Imports) : Param × Imports :=
  let imps := add_needed_import imps param.module param.type_name
  let imps := if optional then add_needed_import imps "typing" "Optional" else imps
  let type_name := Expr.name param.type_name
  let anno :=
    if optional then Expr.subscript (Expr.name "Optional") [type_name]
    else type_name
  ( updated_node.withAnnotation (some anno), imps)

/-- The test `original_node.default is not None and
isinstance(original_node.default, libcst.Name) and
original_node.default.value in ("True", "False")`. -/
def is_bool_literal_default : Option Expr → Bool
  | some (Expr.name v) => v == "True" || v == "False"
  | _ => false

/-- The test `original_node.default is not None and
isinstance(original_node.default, libcst.Name) and
original_node.default.value == "None"`. -/
def is_none_literal_default : Option Expr → Bool
  | some (Expr.name v) => v == "None"
  | _ => false

/-- `AutotypeCommand.leave_Param`: guard order is in-lambda, existing
annotation, bool-literal default, `None`-literal default (Optional rules,
first match), no default (named-param rules, first match). -/
def leave_Param (st : State) (imps : Imports) (original_node updated_node : Param) :
    Param × Imports :=
  if st.in_lambda then
    (updated_node, imps)
  else if original_node.annotation.isSome then
    (updated_node, imps)
  else if st.bool_param && is_bool_literal_default original_node.default then
    ( updated_node.withAnnotation (some (Expr.name "bool")), imps)
  else
    let default_is_none := is_none_literal_default original_node.default
    if default_is_none then
      match st.annotate_optionals.find? (fun r => original_node.name == r.name) with
      | some anno_optional => _annotate_param anno_optional updated_node true imps
      | none => (updated_node, imps)
    else if original_node.default.isNone then
      match st.annotate_named_params.find? (fun r => original_node.name == r.name) with
      | some anno_named_param => _annotate_param anno_named_param updated_node false imps
      | none => (updated_node, imps)
    else (updated_node, imps)

/-- `AutotypeCommand.leave_FunctionDef`: pop the three frames first (in every
branch), then — only when the ORIGINAL node has no return annotation — apply
the priority chain: bare-`None` return, simple magics, imprecise magics
(which also requests an import), else leave the updated node unchanged. -/
def leave_FunctionDef (st : State) (imps : Imports) (name : String)
    (original_returns : Option Expr) (params' : List Param)
    (returns' : Option Expr) (body' : List Stmt) : Stmt × State × Imports :=
  let seen_return := st.seen_return_statement.headD false
  let seen_raise := st.seen_raise_statement.headD false
  let seen_yield := st.seen_yield.headD false
  let st := { st with
    seen_return_statement := st.seen_return_statement.tail,
    seen_raise_statement := st.seen_raise_statement.tail,
    seen_yield := st.seen_yield.tail }
  if original_returns.isNone then
    if st.none_return && !seen_raise && !seen_return && !seen_yield then
      (.functionDef name params' (some (Expr.name "None")) body', st, imps)
    else
      match (if st.annotate_magics then SIMPLE_MAGICS.lookup name else none) with
      | some ty => (.functionDef name params' (some (Expr.name ty)) body', st, imps)
      | none =>
        match (if st.annotate_imprecise_magics then IMPRECISE_MAGICS.lookup name
               else none) with
        | some (module, imported_name) =>
          (.functionDef name params' (some (Expr.name imported_name)) body', st,
           add_needed_import imps module imported_name)
        | none => (.functionDef name params' returns' body', st, imps)
  else (.functionDef name params' returns' body', st, imps)

/-- The state after `leave_FunctionDef`'s three `pop()` calls: every stack
loses its top frame, whatever annotation decision follows. -/
def popFrames (st : State) : State :=
  { st with
    seen_return_statement := st.seen_return_statement.tail,
    seen_raise_statement := st.seen_raise_statement.tail,
    seen_yield := st.seen_yield.tail }

mutual
/-- Depth-first traversal of an expression, threading the visitor state and
the import-request trace (children in syntactic order). -/
def visitExpr (st : State) (imps : Imports) : Expr → Expr × State × Imports
  | .name v => (.name v, st, imps)
  | .lambdaE ps body =>
    let r1 := visitParams (visit_Lambda st) imps ps
    let r2 := visitExpr r1.2.1 r1.2.2 body
    (.lambdaE r1.1 r2.1, leave_Lambda r2.2.1, r2.2.2)
  | .yieldE v =>
    let r := visitOptExpr (visit_Yield st) imps v
    (.yieldE r.1, r.2.1, r.2.2)
  | .subscript v ss =>
    let r1 := visitExpr st imps v
    let r2 := visitExprs r1.2.1 r1.2.2 ss
    (.subscript r1.1 r2.1, r2.2.1, r2.2.2)
  | .otherE es =>
    let r := visitExprs st imps es
    (.otherE r.1, r.2.1, r.2.2)

def visitExprs (st : State) (imps : Imports) : List Expr → List Expr × State × Imports
  | [] => ([], st, imps)
  | e :: es =>
    let r1 := visitExpr st imps e
    let r2 := visitExprs r1.2.1 r1.2.2 es
    (r1.1 :: r2.1, r2.2.1, r2.2.2)

def visitOptExpr (st : State) (imps : Imports) : Option Expr → Option Expr × State × Imports
  | none => (none, st, imps)
  | some e =>
    let r := visitExpr st imps e
    (some r.1, r.2.1, r.2.2)

/-- A `Param` node: both children first, then `leave_Param`
with the ORIGINAL node for the guards and the updated node for the rebuild. -/
def visitParam (st : State) (imps : Imports) : Param → Param × State × Imports
  | .mk nm ann dflt =>
    let r1 := visitOptExpr st imps ann
    let r2 := visitOptExpr r1.2.1 r1.2.2 dflt
    let r3 := leave_Param r2.2.1 r2.2.2 (.mk nm ann dflt) (.mk nm r1.1 r2.1)
    (r3.1, r2.2.1, r3.2)

def visitParams (st : State) (imps : Imports) : List Param → List Param × State × Imports
  | [] => ([], st, imps)
  | p :: ps =>
    let r1 := visitParam st imps p
    let r2 := visitParams r1.2.1 r1.2.2 ps
    (r1.1 :: r2.1, r2.2.1, r2.2.2)
end

mutual
/-- Depth-first traversal of a statement. A `FunctionDef` brackets its
children between `visit_FunctionDef` (push) and `leave_FunctionDef` (pop and
decide); a compound statement pushes nothing. -/
def visitStmt (st : State) (imps : Imports) : Stmt → Stmt × State × Imports
  | .functionDef nm ps ret body =>
    let st1 := visit_FunctionDef st
    let r1 := visitParams st1 imps ps
    let r2 := visitOptExpr r1.2.1 r1.2.2 ret
    let r3 := visitStmts r2.2.1 r2.2.2 body
    leave_FunctionDef r3.2.1 r3.2.2 nm ret r1.1 r2.1 r3.1
  | .ret v =>
    let r := visitOptExpr (visit_Return st v) imps v
    (.ret r.1, r.2.1, r.2.2)
  | .raiseS v =>
    let r := visitOptExpr (visit_Raise st) imps v
    (.raiseS r.1, r.2.1, r.2.2)
  | .exprS e =>
    let r := visitExpr st imps e
    (.exprS r.1, r.2.1, r.2.2)
  | .compound es ss =>
    let r1 := visitExprs st imps es
    let r2 := visitStmts r1.2.1 r1.2.2 ss
    (.compound r1.1 r2.1, r2.2.1, r2.2.2)

def visitStmts (st : State) (imps : Imports) : List Stmt → List Stmt × State × Imports
  | [] => ([], st, imps)
  | s :: rest =>
    let r1 := visitStmt st imps s
    let r2 := visitStmts r1.2.1 r1.2.2 rest
    (r1.1 :: r2.1, r2.2.1, r2.2.2)
end

/-- `[NamedParam.make(s) for s in args]`: the comprehension evaluates the
rules left to right and the first malformed one raises, aborting the whole
construction (modelled as `none`). -/
def parse_params : List String → Option (List NamedParam)
  | [] => some []
  | s :: rest =>
    match NamedParam.make s with
    | none => none
    | some r =>
      match parse_params rest with
      | none => none
      | some rs => some (r :: rs)

/-- `AutotypeCommand.__init__`: both rule lists are parsed eagerly (a falsy
argument — absent or empty — yields the empty list); any malformed rule
string makes construction fail before any traversal. -/
def AutotypeCommand.init (annotate_optional annotate_named_param : Option (List String))
    (annotate_magics annotate_imprecise_magics none_return bool_param : Bool) :
    Option State :=
  let parse : Option (List String) → Option (List NamedParam) := fun o =>
    match o with
    | some (s :: rest) => parse_params (s :: rest)
    | _ => some []
  match parse annotate_optional, parse annotate_named_param with
  | some opts, some named =>
    some { annotate_optionals := opts, annotate_named_params := named,
           annotate_magics, annotate_imprecise_magics, none_return, bool_param }
  | _, _ => none

/-- One whole invocation: build the command from the rule strings, then
traverse the tree; construction failure aborts with no output at all. -/
def run_codemod (annotate_optional annotate_named_param : Option (List String))
    (annotate_magics annotate_imprecise_magics none_return bool_param : Bool)
    (tree : List Stmt) : Option (List Stmt × Imports) :=
  match AutotypeCommand.init annotate_optional annotate_named_param
      annotate_magics annotate_imprecise_magics none_return bool_param with
  | none => none
  | some st => some ((visitStmts st [] tree).1, (visitStmts st [] tree).2.2)

/-! ## Lemmas about the character splitter -/

theorem splitOnChar_length (sep : Char) (l : List Char) :
    (splitOnChar sep l).length = l.count sep + 1 := by
  induction l with
  | nil => simp [splitOnChar]
  | cons a rest ih =>
    by_cases h : a = sep
    · subst h
      simp [splitOnChar, List.count_cons, ih]
    · have hne : (sep == a) = false := by
        simpa using fun hc => h hc.symm
      have hne2 : (a == sep) = false := by
        simpa using h
      simp only [splitOnChar, if_neg h]
      rcases hr : splitOnChar sep rest with _ | ⟨hh, tt⟩
      · rw [hr] at ih
        simp at ih
      · rw [hr] at ih
        simp [hr, List.count_cons, hne, hne2] at ih ⊢
        omega

theorem splitOnChar_of_not_mem (sep : Char) (l : List Char) (h : sep ∉ l) :
    splitOnChar sep l = [l] := by
  induction l with
  | nil => rfl
  | cons a rest ih =>
    have ha : a ≠ sep := fun hc => h (hc ▸ List.mem_cons_self a rest)
    have hrest : sep ∉ rest := fun hc => h (List.mem_cons_of_mem a hc)
    simp only [splitOnChar, if_neg ha, ih hrest]

theorem splitOnChar_append (sep : Char) (pre post : List Char) (h : sep ∉ pre) :
    splitOnChar sep (pre ++ sep :: post) = pre :: splitOnChar sep post := by
  induction pre with
  | nil => simp [splitOnChar]
  | cons a pre' ih =>
    have ha : a ≠ sep := fun hc => h (hc ▸ List.mem_cons_self a pre')
    have hpre : sep ∉ pre' := fun hc => h (List.mem_cons_of_mem a hc)
    simp only [List.cons_append, splitOnChar, if_neg ha, List.append_eq, ih hpre]

/-! ## Lemmas about rule parsing and construction -/

theorem make_of_no_colon (s : String) (h : ':' ∉ s.toList) :
    NamedParam.make s = none := by
  unfold NamedParam.make
  rw [splitOnChar_of_not_mem ':' s.toList h]

theorem make_of_count_ne_one (s : String) (h : s.toList.count ':' ≠ 1) :
    NamedParam.make s = none := by
  unfold NamedParam.make
  have hlen : (splitOnChar ':' s.toList).length ≠ 2 := by
    rw [splitOnChar_length]
    omega
  rcases hp : splitOnChar ':' s.toList with _ | ⟨a, _ | ⟨b, _ | ⟨c, rest⟩⟩⟩ <;>
    simp_all

theorem make_one_colon_no_dot (pre post : List Char)
    (hpre : ':' ∉ pre) (hpost : ':' ∉ post) (hdot : '.' ∉ post) :
    NamedParam.make (String.mk (pre ++ ':' :: post)) = none := by
  unfold NamedParam.make
  have h1 : (String.mk (pre ++ ':' :: post)).toList = pre ++ ':' :: post := rfl
  rw [h1, splitOnChar_append ':' pre post hpre, splitOnChar_of_not_mem ':' post hpost]
  simp only [splitOnChar_of_not_mem '.' post hdot, List.reverse_singleton]

theorem make_one_colon_dot (pre post : List Char)
    (hpre : ':' ∉ pre) (hpost : ':' ∉ post) (hdot : '.' ∈ post) :
    ∃ r, NamedParam.make (String.mk (pre ++ ':' :: post)) = some r ∧
      r.name = String.mk pre := by
  unfold NamedParam.make
  have h1 : (String.mk (pre ++ ':' :: post)).toList = pre ++ ':' :: post := rfl
  rw [h1, splitOnChar_append ':' pre post hpre, splitOnChar_of_not_mem ':' post hpost]
  have hlen : 2 ≤ (splitOnChar '.' post).length := by
    rw [splitOnChar_length]
    have : 0 < post.count '.' := List.count_pos_iff.mpr hdot
    omega
  have hlen' : 2 ≤ ((splitOnChar '.' post).reverse).length := by
    simpa using hlen
  rcases hp : (splitOnChar '.' post).reverse with _ | ⟨tn, _ | ⟨m, ms⟩⟩ <;>
    rw [hp] at hlen'
  · simp at hlen'
  · simp at hlen'
  · refine ⟨⟨String.mk pre, String.mk (List.intercalate ['.'] (m :: ms).reverse),
      String.mk tn⟩, ?_, rfl⟩
    simp only [hp]

theorem parse_params_of_bad (l : List String) (s : String) (hs : s ∈ l)
    (hmake : NamedParam.make s = none) : parse_params l = none := by
  induction l with
  | nil => cases hs
  | cons a rest ih =>
    rcases List.mem_cons.mp hs with h | h
    · subst h
      simp [parse_params, hmake]
    · unfold parse_params
      rcases ha : NamedParam.make a with _ | r
      · rfl
      · rw [ih h]

/-! ## Lemmas about first-match scanning -/

theorem find?_first_match (p : NamedParam → Bool) (pre post : List NamedParam)
    (r : NamedParam) (hpre : ∀ q ∈ pre, p q = false) (hr : p r = true) :
    (pre ++ r :: post).find? p = some r := by
  induction pre with
  | nil => simpa [List.find?_cons] using List.find?_cons_of_pos post hr
  | cons a pre' ih =>
    have ha : ¬ p a := by simp [hpre a (List.mem_cons_self a pre')]
    rw [List.cons_append, List.find?_cons_of_neg _ ha]
    exact ih fun q hq => hpre q (List.mem_cons_of_mem a hq)

/-! ## Stack-frame discipline

Every write the visitor performs on a flag stack sets `true` into the top
frame, so each whole-node traversal transforms the stacks by `orTop` with a
bit that does not depend on the incoming stack contents; the traversal output
and import trace are likewise independent of the incoming stacks.  The frame
lemmas below state this in skolemised form. -/

/-- Replace only the three stacks of the state. -/
def withStacks (st : State) (s1 s2 s3 : List Bool) : State :=
  { st with
    seen_return_statement := s1, seen_raise_statement := s2, seen_yield := s3 }

theorem orTop_orTop (s : List Bool) (a b : Bool) :
    orTop (orTop s a) b = orTop s (a || b) := by
  cases s <;> simp [orTop, Bool.or_assoc]

theorem orTop_false (s : List Bool) : orTop s false = s := by
  cases s <;> simp [orTop]

theorem setTop_true_eq (s : List Bool) : setTop s true = orTop s true := by
  cases s <;> simp [setTop, orTop]

theorem orTop_cons (h : Bool) (t : List Bool) (b : Bool) :
    orTop (h :: t) b = (h || b) :: t := rfl

theorem orTop_length (s : List Bool) (b : Bool) : (orTop s b).length = s.length := by
  cases s <;> simp [orTop]

theorem orTop_tail (s : List Bool) (b : Bool) : (orTop s b).tail = s.tail := by
  cases s <;> simp [orTop]

theorem inLambda_self (st : State) : { st with in_lambda := st.in_lambda } = st := rfl

theorem inLambda_inLambda (st : State) (a b : Bool) :
    { ({ st with in_lambda := a } : State) with in_lambda := b } =
      { st with in_lambda := b } := rfl

theorem withStacks_self (st : State) :
    withStacks st st.seen_return_statement st.seen_raise_statement st.seen_yield =
      st := rfl

theorem visit_FunctionDef_ws (st : State) (s1 s2 s3 : List Bool) :
    visit_FunctionDef (withStacks st s1 s2 s3) =
      withStacks st (false :: s1) (false :: s2) (false :: s3) := rfl

theorem visit_Return_ws_some (st : State) (s1 s2 s3 : List Bool) (e : Expr) :
    visit_Return (withStacks st s1 s2 s3) (some e) =
      withStacks st (setTop s1 true) s2 s3 := rfl

theorem visit_Return_ws_none (st : State) (s1 s2 s3 : List Bool) :
    visit_Return (withStacks st s1 s2 s3) none = withStacks st s1 s2 s3 := rfl

theorem visit_Raise_ws (st : State) (s1 s2 s3 : List Bool) :
    visit_Raise (withStacks st s1 s2 s3) =
      withStacks st s1 (setTop s2 true) s3 := rfl

theorem visit_Yield_ws (st : State) (s1 s2 s3 : List Bool) :
    visit_Yield (withStacks st s1 s2 s3) =
      withStacks st s1 s2 (setTop s3 true) := rfl

theorem visit_Lambda_ws (st : State) (s1 s2 s3 : List Bool) :
    visit_Lambda (withStacks st s1 s2 s3) =
      withStacks { st with in_lambda := true } s1 s2 s3 := rfl

theorem leave_Lambda_ws (st : State) (s1 s2 s3 : List Bool) :
    leave_Lambda (withStacks st s1 s2 s3) =
      withStacks { st with in_lambda := false } s1 s2 s3 := rfl

theorem leave_Param_ws (st : State) (s1 s2 s3 : List Bool) (imps : Imports)
    (o u : Param) :
    leave_Param (withStacks st s1 s2 s3) imps o u = leave_Param st imps o u := rfl

mutual
theorem visitExpr_frame : ∀ (e : Expr) (cfg : State) (imps : Imports),
    ∃ N L I r y z, ∀ s1 s2 s3 : List Bool,
      visitExpr (withStacks cfg s1 s2 s3) imps e =
        (N, withStacks { cfg with in_lambda := L }
              (orTop s1 r) (orTop s2 y) (orTop s3 z), I)
  | .name v, cfg, imps =>
    ⟨.name v, cfg.in_lambda, imps, false, false, false, fun s1 s2 s3 => by
      simp [visitExpr, orTop_false, inLambda_self]⟩
  | .lambdaE ps body, cfg, imps => by
    obtain ⟨Np, Lp, I1, rp, yp, zp, hps⟩ :=
      visitParams_frame ps { cfg with in_lambda := true } imps
    obtain ⟨Nb, Lb, I2, rb, yb, zb, hb⟩ :=
      visitExpr_frame body { cfg with in_lambda := Lp } I1
    refine ⟨.lambdaE Np Nb, false, I2, rp || rb, yp || yb, zp || zb,
      fun s1 s2 s3 => ?_⟩
    simp only [visitExpr, visit_Lambda_ws, hps s1 s2 s3, inLambda_inLambda,
      hb (orTop s1 rp) (orTop s2 yp) (orTop s3 zp), leave_Lambda_ws, orTop_orTop]
  | .yieldE v, cfg, imps => by
    obtain ⟨Nv, Lv, I1, rv, yv, zv, hv⟩ := visitOptExpr_frame v cfg imps
    refine ⟨.yieldE Nv, Lv, I1, rv, yv, true || zv, fun s1 s2 s3 => ?_⟩
    simp only [visitExpr, visit_Yield_ws, setTop_true_eq, hv s1 s2 (orTop s3 true),
      orTop_orTop]
  | .subscript v ss, cfg, imps => by
    obtain ⟨Nv, Lv, I1, rv, yv, zv, hv⟩ := visitExpr_frame v cfg imps
    obtain ⟨Ns, Ls, I2, rs, ys, zs, hs⟩ :=
      visitExprs_frame ss { cfg with in_lambda := Lv } I1
    refine ⟨.subscript Nv Ns, Ls, I2, rv || rs, yv || ys, zv || zs,
      fun s1 s2 s3 => ?_⟩
    simp only [visitExpr, hv s1 s2 s3, inLambda_inLambda,
      hs (orTop s1 rv) (orTop s2 yv) (orTop s3 zv), orTop_orTop]
  | .otherE es, cfg, imps => by
    obtain ⟨Ns, Ls, I1, rs, ys, zs, hs⟩ := visitExprs_frame es cfg imps
    refine ⟨.otherE Ns, Ls, I1, rs, ys, zs, fun s1 s2 s3 => ?_⟩
    simp only [visitExpr, hs s1 s2 s3]

theorem visitExprs_frame : ∀ (es : List Expr) (cfg : State) (imps : Imports),
    ∃ N L I r y z, ∀ s1 s2 s3 : List Bool,
      visitExprs (withStacks cfg s1 s2 s3) imps es =
        (N, withStacks { cfg with in_lambda := L }
              (orTop s1 r) (orTop s2 y) (orTop s3 z), I)
  | [], cfg, imps =>
    ⟨[], cfg.in_lambda, imps, false, false, false, fun s1 s2 s3 => by
      simp [visitExprs, orTop_false, inLambda_self]⟩
  | e :: es, cfg, imps => by
    obtain ⟨Ne, Le, I1, re, ye, ze, he⟩ := visitExpr_frame e cfg imps
    obtain ⟨Ns, Ls, I2, rs, ys, zs, hs⟩ :=
      visitExprs_frame es { cfg with in_lambda := Le } I1
    refine ⟨Ne :: Ns, Ls, I2, re || rs, ye || ys, ze || zs, fun s1 s2 s3 => ?_⟩
    simp only [visitExprs, he s1 s2 s3, inLambda_inLambda,
      hs (orTop s1 re) (orTop s2 ye) (orTop s3 ze), orTop_orTop]

theorem visitOptExpr_frame : ∀ (v : Option Expr) (cfg : State) (imps : Imports),
    ∃ N L I r y z, ∀ s1 s2 s3 : List Bool,
      visitOptExpr (withStacks cfg s1 s2 s3) imps v =
        (N, withStacks { cfg with in_lambda := L }
              (orTop s1 r) (orTop s2 y) (orTop s3 z), I)
  | none, cfg, imps =>
    ⟨none, cfg.in_lambda, imps, false, false, false, fun s1 s2 s3 => by
      simp [visitOptExpr, orTop_false, inLambda_self]⟩
  | some e, cfg, imps => by
    obtain ⟨Ne, Le, I1, re, ye, ze, he⟩ := visitExpr_frame e cfg imps
    refine ⟨some Ne, Le, I1, re, ye, ze, fun s1 s2 s3 => ?_⟩
    simp only [visitOptExpr, he s1 s2 s3]

theorem visitParam_frame : ∀ (p : Param) (cfg : State) (imps : Imports),
    ∃ N L I r y z, ∀ s1 s2 s3 : List Bool,
      visitParam (withStacks cfg s1 s2 s3) imps p =
        (N, withStacks { cfg with in_lambda := L }
              (orTop s1 r) (orTop s2 y) (orTop s3 z), I)
  | .mk nm ann dflt, cfg, imps => by
    obtain ⟨Na, La, I1, ra, ya, za, ha⟩ := visitOptExpr_frame ann cfg imps
    obtain ⟨Nd, Ld, I2, rd, yd, zd, hd⟩ :=
      visitOptExpr_frame dflt { cfg with in_lambda := La } I1
    refine ⟨(leave_Param { cfg with in_lambda := Ld } I2 (.mk nm ann dflt)
        (.mk nm Na Nd)).1, Ld,
      (leave_Param { cfg with in_lambda := Ld } I2 (.mk nm ann dflt)
        (.mk nm Na Nd)).2, ra || rd, ya || yd, za || zd, fun s1 s2 s3 => ?_⟩
    simp only [visitParam, ha s1 s2 s3, inLambda_inLambda,
      hd (orTop s1 ra) (orTop s2 ya) (orTop s3 za), leave_Param_ws, orTop_orTop]

theorem visitParams_frame : ∀ (ps : List Param) (cfg : State) (imps : Imports),
    ∃ N L I r y z, ∀ s1 s2 s3 : List Bool,
      visitParams (withStacks cfg s1 s2 s3) imps ps =
        (N, withStacks { cfg with in_lambda := L }
              (orTop s1 r) (orTop s2 y) (orTop s3 z), I)
  | [], cfg, imps =>
    ⟨[], cfg.in_lambda, imps, false, false, false, fun s1 s2 s3 => by
      simp [visitParams, orTop_false, inLambda_self]⟩
  | p :: ps, cfg, imps => by
    obtain ⟨Np, Lp, I1, rp, yp, zp, hp⟩ := visitParam_frame p cfg imps
    obtain ⟨Ns, Ls, I2, rs, ys, zs, hs⟩ :=
      visitParams_frame ps { cfg with in_lambda := Lp } I1
    refine ⟨Np :: Ns, Ls, I2, rp || rs, yp || ys, zp || zs, fun s1 s2 s3 => ?_⟩
    simp only [visitParams, hp s1 s2 s3, inLambda_inLambda,
      hs (orTop s1 rp) (orTop s2 yp) (orTop s3 zp), orTop_orTop]
end

theorem leave_FunctionDef_frame (st : State) (imps : Imports) (nm : String)
    (orig : Option Expr) (ps : List Param) (rt : Option Expr) (bd : List Stmt)
    (x y z : Bool) :
    ∃ N I, ∀ S1 S2 S3 : List Bool,
      leave_FunctionDef (withStacks st (x :: S1) (y :: S2) (z :: S3)) imps
          nm orig ps rt bd =
        (N, withStacks st S1 S2 S3, I) := by
  rcases orig with _ | r
  · cases hc : (st.none_return && !y && !x && !z)
    · rcases hm1 : (if st.annotate_magics then SIMPLE_MAGICS.lookup nm else none)
          with _ | ty
      · rcases hm2 : (if st.annotate_imprecise_magics then IMPRECISE_MAGICS.lookup nm
            else none) with _ | ⟨module, sym⟩
        · exact ⟨.functionDef nm ps rt bd, imps, fun S1 S2 S3 => by
            simp [leave_FunctionDef, withStacks, hc, hm1, hm2]⟩
        · exact ⟨.functionDef nm ps (some (.name sym)) bd,
            add_needed_import imps module sym, fun S1 S2 S3 => by
            simp [leave_FunctionDef, withStacks, hc, hm1, hm2]⟩
      · exact ⟨.functionDef nm ps (some (.name ty)) bd, imps, fun S1 S2 S3 => by
          simp [leave_FunctionDef, withStacks, hc, hm1]⟩
    · exact ⟨.functionDef nm ps (some (.name "None")) bd, imps, fun S1 S2 S3 => by
        simp [leave_FunctionDef, withStacks, hc]⟩
  · exact ⟨.functionDef nm ps rt bd, imps, fun S1 S2 S3 => by
      simp [leave_FunctionDef, withStacks]⟩

mutual
theorem visitStmt_frame : ∀ (n : Stmt) (cfg : State) (imps : Imports),
    ∃ N L I r y z, ∀ s1 s2 s3 : List Bool,
      visitStmt (withStacks cfg s1 s2 s3) imps n =
        (N, withStacks { cfg with in_lambda := L }
              (orTop s1 r) (orTop s2 y) (orTop s3 z), I)
  | .functionDef nm ps ret body, cfg, imps => by
    obtain ⟨Np, Lp, I1, rp, yp, zp, hps⟩ := visitParams_frame ps cfg imps
    obtain ⟨Nr, Lr, I2, rr, yr, zr, hret⟩ :=
      visitOptExpr_frame ret { cfg with in_lambda := Lp } I1
    obtain ⟨Nb, Lb, I3, rb, yb, zb, hbody⟩ :=
      visitStmts_frame body { cfg with in_lambda := Lr } I2
    obtain ⟨N, I4, hleave⟩ := leave_FunctionDef_frame { cfg with in_lambda := Lb } I3
      nm ret Np Nr Nb (false || rp || rr || rb) (false || yp || yr || yb)
      (false || zp || zr || zb)
    refine ⟨N, Lb, I4, false, false, false, fun s1 s2 s3 => ?_⟩
    simp only [visitStmt, visit_FunctionDef_ws,
      hps (false :: s1) (false :: s2) (false :: s3), orTop_cons, inLambda_inLambda,
      hret ((false || rp) :: s1) ((false || yp) :: s2) ((false || zp) :: s3),
      hbody ((false || rp || rr) :: s1) ((false || yp || yr) :: s2)
        ((false || zp || zr) :: s3),
      hleave s1 s2 s3, orTop_false]
  | .ret v, cfg, imps => by
    rcases v with _ | e
    · exact ⟨.ret none, cfg.in_lambda, imps, false, false, false, fun s1 s2 s3 => by
        simp [visitStmt, visit_Return_ws_none, visitOptExpr, orTop_false,
          inLambda_self]⟩
    · obtain ⟨Ne, Le, I1, re, ye, ze, he⟩ := visitExpr_frame e cfg imps
      refine ⟨.ret (some Ne), Le, I1, true || re, ye, ze, fun s1 s2 s3 => ?_⟩
      simp only [visitStmt, visit_Return_ws_some, setTop_true_eq, visitOptExpr,
        he (orTop s1 true) s2 s3, orTop_orTop]
  | .raiseS v, cfg, imps => by
    obtain ⟨Nv, Lv, I1, rv, yv, zv, hv⟩ := visitOptExpr_frame v cfg imps
    refine ⟨.raiseS Nv, Lv, I1, rv, true || yv, zv, fun s1 s2 s3 => ?_⟩
    simp only [visitStmt, visit_Raise_ws, setTop_true_eq,
      hv s1 (orTop s2 true) s3, orTop_orTop]
  | .exprS e, cfg, imps => by
    obtain ⟨Ne, Le, I1, re, ye, ze, he⟩ := visitExpr_frame e cfg imps
    exact ⟨.exprS Ne, Le, I1, re, ye, ze, fun s1 s2 s3 => by
      simp only [visitStmt, he s1 s2 s3]⟩
  | .compound es ss, cfg, imps => by
    obtain ⟨Ne, Le, I1, re, ye, ze, he⟩ := visitExprs_frame es cfg imps
    obtain ⟨Ns, Ls, I2, rs, ys, zs, hs⟩ :=
      visitStmts_frame ss { cfg with in_lambda := Le } I1
    refine ⟨.compound Ne Ns, Ls, I2, re || rs, ye || ys, ze || zs,
      fun s1 s2 s3 => ?_⟩
    simp only [visitStmt, he s1 s2 s3, inLambda_inLambda,
      hs (orTop s1 re) (orTop s2 ye) (orTop s3 ze), orTop_orTop]

theorem visitStmts_frame : ∀ (m : List Stmt) (cfg : State) (imps : Imports),
    ∃ N L I r y z, ∀ s1 s2 s3 : List Bool,
      visitStmts (withStacks cfg s1 s2 s3) imps m =
        (N, withStacks { cfg with in_lambda := L }
              (orTop s1 r) (orTop s2 y) (orTop s3 z), I)
  | [], cfg, imps =>
    ⟨[], cfg.in_lambda, imps, false, false, false, fun s1 s2 s3 => by
      simp [visitStmts, orTop_false, inLambda_self]⟩
  | s :: rest, cfg, imps => by
    obtain ⟨Ns, Ls, I1, rs, ys, zs, hs⟩ := visitStmt_frame s cfg imps
    obtain ⟨Nr, Lr, I2, rr, yr, zr, hr⟩ :=
      visitStmts_frame rest { cfg with in_lambda := Ls } I1
    refine ⟨Ns :: Nr, Lr, I2, rs || rr, ys || yr, zs || zr, fun s1 s2 s3 => ?_⟩
    simp only [visitStmts, hs s1 s2 s3, inLambda_inLambda,
      hr (orTop s1 rs) (orTop s2 ys) (orTop s3 zs), orTop_orTop]
end

/-- A whole `FunctionDef` subtree restores all three stacks exactly: the
pushed frames absorb every fact recorded inside, the pops remove them. -/
theorem visitStmt_functionDef_stacks (nm : String) (ps : List Param)
    (ret : Option Expr) (body : List Stmt) (cfg : State) (imps : Imports)
    (s1 s2 s3 : List Bool) :
    ∃ L, (visitStmt (withStacks cfg s1 s2 s3) imps
        (.functionDef nm ps ret body)).2.1 =
      withStacks { cfg with in_lambda := L } s1 s2 s3 := by
  obtain ⟨Np, Lp, I1, rp, yp, zp, hps⟩ := visitParams_frame ps cfg imps
  obtain ⟨Nr, Lr, I2, rr, yr, zr, hret⟩ :=
    visitOptExpr_frame ret { cfg with in_lambda := Lp } I1
  obtain ⟨Nb, Lb, I3, rb, yb, zb, hbody⟩ :=
    visitStmts_frame body { cfg with in_lambda := Lr } I2
  obtain ⟨N, I4, hleave⟩ := leave_FunctionDef_frame { cfg with in_lambda := Lb } I3
    nm ret Np Nr Nb (false || rp || rr || rb) (false || yp || yr || yb)
    (false || zp || zr || zb)
  refine ⟨Lb, ?_⟩
  simp only [visitStmt, visit_FunctionDef_ws,
    hps (false :: s1) (false :: s2) (false :: s3), orTop_cons, inLambda_inLambda,
    hret ((false || rp) :: s1) ((false || yp) :: s2) ((false || zp) :: s3),
    hbody ((false || rp || rr) :: s1) ((false || yp || yr) :: s2)
      ((false || zp || zr) :: s3),
    hleave s1 s2 s3]

/-! ## Idempotence

A second traversal of a first-pass output, started from the same initial
state, reproduces that output and the same state evolution: an added
annotation sits in a slot whose mere presence makes the guards skip the node,
and the annotation expressions the codemod creates are pure names recording
no control-flow facts. -/

theorem visitExpr_name_eq (st : State) (i : Imports) (v : String) :
    visitExpr st i (.name v) = (.name v, st, i) := rfl

theorem visitOptExpr_none_eq (st : State) (i : Imports) :
    visitOptExpr st i none = (none, st, i) := rfl

theorem visitOptExpr_some_name (st : State) (i : Imports) (v : String) :
    visitOptExpr st i (some (.name v)) = (some (.name v), st, i) := rfl

theorem visitOptExpr_some_subscript (st : State) (i : Imports) (a b : String) :
    visitOptExpr st i (some (.subscript (.name a) [.name b])) =
      (some (.subscript (.name a) [.name b]), st, i) := by
  simp [visitOptExpr, visitExpr, visitExprs]

theorem visitOptExpr_isSome (st : State) (i : Imports) (d : Option Expr) :
    ((visitOptExpr st i d).1).isSome = d.isSome := by
  rcases d with _ | e <;> simp [visitOptExpr]

theorem visitOptExpr_isNone (st : State) (i : Imports) (d : Option Expr) :
    ((visitOptExpr st i d).1).isNone = d.isNone := by
  rcases d with _ | e <;> simp [visitOptExpr]

theorem visitOptExpr_boolLit (st : State) (i : Imports) (d : Option Expr) :
    is_bool_literal_default ((visitOptExpr st i d).1) =
      is_bool_literal_default d := by
  rcases d with _ | e
  · rfl
  · rcases e <;> simp [visitOptExpr, visitExpr, is_bool_literal_default]

theorem visitOptExpr_noneLit (st : State) (i : Imports) (d : Option Expr) :
    is_none_literal_default ((visitOptExpr st i d).1) =
      is_none_literal_default d := by
  rcases d with _ | e
  · rfl
  · rcases e <;> simp [visitOptExpr, visitExpr, is_none_literal_default]

mutual
theorem visitExpr_idem : ∀ (e : Expr) (st : State) (i1 i2 : Imports),
    (visitExpr st i2 (visitExpr st i1 e).1).1 = (visitExpr st i1 e).1 ∧
    (visitExpr st i2 (visitExpr st i1 e).1).2.1 = (visitExpr st i1 e).2.1
  | .name v, st, i1, i2 => by
    simp [visitExpr]
  | .lambdaE ps body, st, i1, i2 => by
    have IHp := fun st i1 i2 => visitParams_idem ps st i1 i2
    have IHb := fun st i1 i2 => visitExpr_idem body st i1 i2
    refine ⟨?_, ?_⟩ <;> simp only [visitExpr, IHp, IHb]
  | .yieldE v, st, i1, i2 => by
    have IHv := fun st i1 i2 => visitOptExpr_idem v st i1 i2
    refine ⟨?_, ?_⟩ <;> simp only [visitExpr, IHv]
  | .subscript v ss, st, i1, i2 => by
    have IHv := fun st i1 i2 => visitExpr_idem v st i1 i2
    have IHs := fun st i1 i2 => visitExprs_idem ss st i1 i2
    refine ⟨?_, ?_⟩ <;> simp only [visitExpr, IHv, IHs]
  | .otherE es, st, i1, i2 => by
    have IHs := fun st i1 i2 => visitExprs_idem es st i1 i2
    refine ⟨?_, ?_⟩ <;> simp only [visitExpr, IHs]

theorem visitExprs_idem : ∀ (es : List Expr) (st : State) (i1 i2 : Imports),
    (visitExprs st i2 (visitExprs st i1 es).1).1 = (visitExprs st i1 es).1 ∧
    (visitExprs st i2 (visitExprs st i1 es).1).2.1 = (visitExprs st i1 es).2.1
  | [], st, i1, i2 => by
    simp [visitExprs]
  | e :: es, st, i1, i2 => by
    have IHe := fun st i1 i2 => visitExpr_idem e st i1 i2
    have IHs := fun st i1 i2 => visitExprs_idem es st i1 i2
    refine ⟨?_, ?_⟩ <;> simp only [visitExprs, IHe, IHs]

theorem visitOptExpr_idem : ∀ (v : Option Expr) (st : State) (i1 i2 : Imports),
    (visitOptExpr st i2 (visitOptExpr st i1 v).1).1 = (visitOptExpr st i1 v).1 ∧
    (visitOptExpr st i2 (visitOptExpr st i1 v).1).2.1 =
      (visitOptExpr st i1 v).2.1
  | none, st, i1, i2 => by
    simp [visitOptExpr]
  | some e, st, i1, i2 => by
    have IHe := fun st i1 i2 => visitExpr_idem e st i1 i2
    refine ⟨?_, ?_⟩ <;> simp only [visitOptExpr, IHe]

theorem visitParam_idem : ∀ (p : Param) (st : State) (i1 i2 : Imports),
    (visitParam st i2 (visitParam st i1 p).1).1 = (visitParam st i1 p).1 ∧
    (visitParam st i2 (visitParam st i1 p).1).2.1 = (visitParam st i1 p).2.1
  | .mk nm ann dflt, st, i1, i2 => by
    have IHd := fun st i1 i2 => visitOptExpr_idem dflt st i1 i2
    rcases ann with _ | a0
    · cases hl : (visitOptExpr st i1 dflt).2.1.in_lambda
      case true =>
        refine ⟨?_, ?_⟩ <;>
          simp [visitParam, visitOptExpr_none_eq, leave_Param, Param.annotation,
            Param.default, Param.name, IHd, hl]
      case false =>
        cases hbg : ((visitOptExpr st i1 dflt).2.1.bool_param &&
            is_bool_literal_default dflt)
        case true =>
          refine ⟨?_, ?_⟩ <;>
            simp [visitParam, visitOptExpr_none_eq, visitOptExpr_some_name,
              leave_Param, Param.annotation, Param.default, Param.name,
              Param.withAnnotation, IHd, visitOptExpr_boolLit, hl, hbg]
        case false =>
          cases hnl : is_none_literal_default dflt
          case true =>
            cases hf : (visitOptExpr st i1 dflt).2.1.annotate_optionals.find?
                (fun r => nm == r.name)
            case none =>
              refine ⟨?_, ?_⟩ <;>
                simp [visitParam, visitOptExpr_none_eq, leave_Param,
                  Param.annotation, Param.default, Param.name, IHd,
                  visitOptExpr_boolLit, visitOptExpr_noneLit, hl, hbg, hnl, hf]
            case some r =>
              refine ⟨?_, ?_⟩ <;>
                simp [visitParam, visitOptExpr_none_eq, visitOptExpr_some_subscript,
                  leave_Param, _annotate_param, Param.annotation, Param.default,
                  Param.name, Param.withAnnotation, IHd, visitOptExpr_boolLit,
                  hl, hbg, hnl, hf]
          case false =>
            cases hdn : dflt.isNone
            case true =>
              cases hf2 : (visitOptExpr st i1 dflt).2.1.annotate_named_params.find?
                  (fun r => nm == r.name)
              case none =>
                refine ⟨?_, ?_⟩ <;>
                  simp [visitParam, visitOptExpr_none_eq, leave_Param,
                    Param.annotation, Param.default, Param.name, IHd,
                    visitOptExpr_boolLit, visitOptExpr_noneLit, visitOptExpr_isNone,
                    hl, hbg, hnl, hdn, hf2]
              case some r =>
                refine ⟨?_, ?_⟩ <;>
                  simp [visitParam, visitOptExpr_none_eq, visitOptExpr_some_name,
                    leave_Param, _annotate_param, Param.annotation, Param.default,
                    Param.name, Param.withAnnotation, IHd, visitOptExpr_boolLit,
                    visitOptExpr_noneLit, visitOptExpr_isNone, hl, hbg, hnl, hdn,
                    hf2]
            case false =>
              refine ⟨?_, ?_⟩ <;>
                simp [visitParam, visitOptExpr_none_eq, leave_Param,
                  Param.annotation, Param.default, Param.name, IHd,
                  visitOptExpr_boolLit, visitOptExpr_noneLit, visitOptExpr_isNone,
                  hl, hbg, hnl, hdn]
    · have IHa := fun st i1 i2 => visitExpr_idem a0 st i1 i2
      refine ⟨?_, ?_⟩ <;>
        simp [visitParam, visitOptExpr, leave_Param, Param.annotation,
          Param.default, IHa, IHd]

theorem visitParams_idem : ∀ (ps : List Param) (st : State) (i1 i2 : Imports),
    (visitParams st i2 (visitParams st i1 ps).1).1 = (visitParams st i1 ps).1 ∧
    (visitParams st i2 (visitParams st i1 ps).1).2.1 =
      (visitParams st i1 ps).2.1
  | [], st, i1, i2 => by
    simp [visitParams]
  | p :: ps, st, i1, i2 => by
    have IHp := fun st i1 i2 => visitParam_idem p st i1 i2
    have IHs := fun st i1 i2 => visitParams_idem ps st i1 i2
    refine ⟨?_, ?_⟩ <;> simp only [visitParams, IHp, IHs]
end

mutual
theorem visitStmt_idem : ∀ (n : Stmt) (st : State) (i1 i2 : Imports),
    (visitStmt st i2 (visitStmt st i1 n).1).1 = (visitStmt st i1 n).1 ∧
    (visitStmt st i2 (visitStmt st i1 n).1).2.1 = (visitStmt st i1 n).2.1
  | .functionDef nm ps ret body, st, i1, i2 => by
    have IHps := fun st i1 i2 => visitParams_idem ps st i1 i2
    have IHbody := fun st i1 i2 => visitStmts_idem body st i1 i2
    rcases ret with _ | r0
    · simp only [visitStmt, visitOptExpr_none_eq, leave_FunctionDef,
        Option.isNone_none, if_true]
      split
      next h =>
        simp [visitStmt, visitOptExpr_some_name, visitOptExpr_none_eq,
          leave_FunctionDef, IHps, IHbody]
      next h =>
        split
        next ty heq =>
          simp [visitStmt, visitOptExpr_some_name, visitOptExpr_none_eq,
            leave_FunctionDef, IHps, IHbody]
        next heq =>
          split
          next mod sym heq2 =>
            simp [visitStmt, visitOptExpr_some_name, visitOptExpr_none_eq,
              leave_FunctionDef, IHps, IHbody]
          next heq2 =>
            simp only [Bool.and_eq_true, Bool.not_eq_true',
              List.headD_eq_head?_getD] at h
            simp [visitStmt, visitOptExpr_none_eq, leave_FunctionDef, IHps,
              IHbody, h, heq, heq2]
    · have IHr := fun st i1 i2 => visitExpr_idem r0 st i1 i2
      refine ⟨?_, ?_⟩ <;>
        simp [visitStmt, visitOptExpr, leave_FunctionDef, IHps, IHr, IHbody]
  | .ret v, st, i1, i2 => by
    rcases v with _ | e
    · simp [visitStmt, visit_Return, visitOptExpr]
    · have IHe := fun st i1 i2 => visitExpr_idem e st i1 i2
      refine ⟨?_, ?_⟩ <;> simp [visitStmt, visit_Return, visitOptExpr, IHe]
  | .raiseS v, st, i1, i2 => by
    have IHv := fun st i1 i2 => visitOptExpr_idem v st i1 i2
    refine ⟨?_, ?_⟩ <;> simp only [visitStmt, IHv]
  | .exprS e, st, i1, i2 => by
    have IHe := fun st i1 i2 => visitExpr_idem e st i1 i2
    refine ⟨?_, ?_⟩ <;> simp only [visitStmt, IHe]
  | .compound es ss, st, i1, i2 => by
    have IHes := fun st i1 i2 => visitExprs_idem es st i1 i2
    have IHss := fun st i1 i2 => visitStmts_idem ss st i1 i2
    refine ⟨?_, ?_⟩ <;> simp only [visitStmt, IHes, IHss]

theorem visitStmts_idem : ∀ (m : List Stmt) (st : State) (i1 i2 : Imports),
    (visitStmts st i2 (visitStmts st i1 m).1).1 = (visitStmts st i1 m).1 ∧
    (visitStmts st i2 (visitStmts st i1 m).1).2.1 = (visitStmts st i1 m).2.1
  | [], st, i1, i2 => by
    simp [visitStmts]
  | s :: rest, st, i1, i2 => by
    have IHs := fun st i1 i2 => visitStmt_idem s st i1 i2
    have IHr := fun st i1 i2 => visitStmts_idem rest st i1 i2
    refine ⟨?_, ?_⟩ <;> simp only [visitStmts, IHs, IHr]
end

/-! ## Claim theorems -/

/-- C1: with no existing return annotation, `leave_FunctionDef` applies the
return-type policy in strict priority order with first match winning —
(a) bare-`None` return when enabled and the popped frame saw no raise, no
value-returning return and no yield, for ANY function name (magic or not);
(b) else the simple-magic table when enabled; (c) else the imprecise-magic
table when enabled, also requesting the paired import; (d) else no change —
and a function that already has a return annotation is never modified.  In
every branch the three frames are popped (`popFrames`). -/
theorem autotype_C1_return_policy (st : State) (imps : Imports) (nm : String)
    (ps' : List Param) (ret' : Option Expr) (body' : List Stmt) :
    ((st.none_return && !st.seen_raise_statement.headD false &&
        !st.seen_return_statement.headD false && !st.seen_yield.headD false) = true →
      leave_FunctionDef st imps nm none ps' ret' body' =
        (.functionDef nm ps' (some (.name "None")) body', popFrames st, imps))
    ∧ (∀ ty, (st.none_return && !st.seen_raise_statement.headD false &&
        !st.seen_return_statement.headD false && !st.seen_yield.headD false) = false →
        st.annotate_magics = true → SIMPLE_MAGICS.lookup nm = some ty →
        leave_FunctionDef st imps nm none ps' ret' body' =
          (.functionDef nm ps' (some (.name ty)) body', popFrames st, imps))
    ∧ (∀ module sym, (st.none_return && !st.seen_raise_statement.headD false &&
        !st.seen_return_statement.headD false && !st.seen_yield.headD false) = false →
        (if st.annotate_magics then SIMPLE_MAGICS.lookup nm else none) = none →
        st.annotate_imprecise_magics = true →
        IMPRECISE_MAGICS.lookup nm = some (module, sym) →
        leave_FunctionDef st imps nm none ps' ret' body' =
          (.functionDef nm ps' (some (.name sym)) body', popFrames st,
           imps ++ [(module, sym)]))
    ∧ ((st.none_return && !st.seen_raise_statement.headD false &&
        !st.seen_return_statement.headD false && !st.seen_yield.headD false) = false →
        (if st.annotate_magics then SIMPLE_MAGICS.lookup nm else none) = none →
        (if st.annotate_imprecise_magics then IMPRECISE_MAGICS.lookup nm else none) = none →
        leave_FunctionDef st imps nm none ps' ret' body' =
          (.functionDef nm ps' ret' body', popFrames st, imps))
    ∧ (∀ r, leave_FunctionDef st imps nm (some r) ps' ret' body' =
        (.functionDef nm ps' ret' body', popFrames st, imps)) := by
  refine ⟨?_, ?_, ?_, ?_, ?_⟩
  · intro hcond
    simp only [leave_FunctionDef]
    rw [hcond]
    simp [popFrames]
  · intro ty hcond hmag hlook
    simp only [leave_FunctionDef]
    rw [hcond, hmag]
    simp [hlook, hmag, popFrames]
  · intro module sym hcond hsimple himp hlook
    simp only [leave_FunctionDef]
    rw [hcond, hsimple]
    rw [himp]
    simp [hlook, himp, popFrames, add_needed_import]
  · intro hcond hsimple himprecise
    simp only [leave_FunctionDef]
    rw [hcond, hsimple, himprecise]
    simp [popFrames]
  · intro r
    simp [leave_FunctionDef, popFrames]

/-- Witness for C1: a function named `__str__` with clean control-flow frames
gets `None` under rule (a) — the bare-`None` rule ignores the magic name. -/
theorem autotype_C1_return_policy_witness :
    leave_FunctionDef
      { annotate_optionals := [], annotate_named_params := [],
        annotate_magics := true, annotate_imprecise_magics := true,
        none_return := true, bool_param := false } [] "__str__" none [] none [] =
      (.functionDef "__str__" [] (some (.name "None")) [],
       { annotate_optionals := [], annotate_named_params := [],
         annotate_magics := true, annotate_imprecise_magics := true,
         none_return := true, bool_param := false,
         seen_return_statement := [], seen_raise_statement := [],
         seen_yield := [], in_lambda := false }, []) :=
  (autotype_C1_return_policy _ [] "__str__" [] none []).1 rfl

/-- C2 fails on the code (code bug): `leave_Lambda` clears `in_lambda`
unconditionally instead of restoring the saved value, so after an inner
lambda sitting in an outer lambda's parameter default, the outer lambda's
later parameter `x = None` IS annotated (`x: Optional[T] = None` plus two
requested imports) — although lambda parameters cannot carry annotations, as
the code's own comment states.  Evaluation at the failing input
`lambda g=lambda: 0, x=None: x` with rule `x:m.T`. -/
theorem autotype_C2_nested_lambda_bug :
    visitStmt
      { annotate_optionals := [⟨"x", "m", "T"⟩], annotate_named_params := [],
        annotate_magics := false, annotate_imprecise_magics := false,
        none_return := false, bool_param := false } []
      (.exprS (.lambdaE
        [Param.mk "g" none (some (.lambdaE [] (.name "0"))),
         Param.mk "x" none (some (.name "None"))]
        (.name "x"))) =
      (.exprS (.lambdaE
        [Param.mk "g" none (some (.lambdaE [] (.name "0"))),
         Param.mk "x" (some (.subscript (.name "Optional") [.name "T"]))
           (some (.name "None"))]
        (.name "x")),
       { annotate_optionals := [⟨"x", "m", "T"⟩], annotate_named_params := [],
         annotate_magics := false, annotate_imprecise_magics := false,
         none_return := false, bool_param := false },
       [("m", "T"), ("typing", "Optional")]) := by
  rfl

/-- C4: a parameter outside a lambda, with no annotation and the literal
`None` default, is annotated `Optional[TYPE]` by the FIRST Optional rule
whose name matches, with the rule's import and `typing.Optional` both
requested in that order; with no matching rule it is unchanged. -/
theorem autotype_C4_optional_param_rules (st : State) (imps : Imports)
    (nm nm2 : String) (ann2 dflt2 : Option Expr) (hlam : st.in_lambda = false) :
    (∀ pre r post, st.annotate_optionals = pre ++ r :: post →
        (∀ q ∈ pre, q.name ≠ nm) → r.name = nm →
        leave_Param st imps (Param.mk nm none (some (.name "None")))
            (Param.mk nm2 ann2 dflt2) =
          (Param.mk nm2 (some (.subscript (.name "Optional") [.name r.type_name])) dflt2,
           imps ++ [(r.module, r.type_name), ("typing", "Optional")]))
    ∧ ((∀ q ∈ st.annotate_optionals, q.name ≠ nm) →
        leave_Param st imps (Param.mk nm none (some (.name "None")))
            (Param.mk nm2 ann2 dflt2) =
          (Param.mk nm2 ann2 dflt2, imps)) := by
  constructor
  · intro pre r post hlist hpre hr
    have hfind : st.annotate_optionals.find?
        (fun q => (Param.mk nm none (some (.name "None"))).name == q.name) = some r := by
      rw [hlist]
      refine find?_first_match _ pre post r ?_ ?_
      · intro q hq
        simpa [Param.name] using Ne.symm (hpre q hq)
      · simpa [Param.name] using hr.symm
    have hNT : (("None" : String) == "True") = false := by decide
    have hNF : (("None" : String) == "False") = false := by decide
    simp [leave_Param, hlam, hfind, hNT, hNF, _annotate_param, add_needed_import,
      is_bool_literal_default, is_none_literal_default,
      Param.withAnnotation, Param.annotation, Param.default]
  · intro hnone
    have hfind : st.annotate_optionals.find?
        (fun q => (Param.mk nm none (some (.name "None"))).name == q.name) = none := by
      rw [List.find?_eq_none]
      intro q hq
      simpa [Param.name] using Ne.symm (hnone q hq)
    have hNT : (("None" : String) == "True") = false := by decide
    have hNF : (("None" : String) == "False") = false := by decide
    simp [leave_Param, hlam, hfind, hNT, hNF, is_bool_literal_default,
      is_none_literal_default, Param.annotation, Param.default]

/-- Witness for C4: rule list `[y:m.S, x:m.T]` on parameter `x = None`
annotates `Optional[T]` and requests `(m, T)` then `(typing, Optional)`;
parameter `z = None` is untouched. -/
theorem autotype_C4_optional_param_rules_witness :
    leave_Param
      { annotate_optionals := [⟨"y", "m", "S"⟩, ⟨"x", "m", "T"⟩],
        annotate_named_params := [], annotate_magics := false,
        annotate_imprecise_magics := false, none_return := false,
        bool_param := true } [] (Param.mk "x" none (some (.name "None")))
      (Param.mk "x" none (some (.name "None"))) =
      (Param.mk "x" (some (.subscript (.name "Optional") [.name "T"]))
        (some (.name "None")), [("m", "T"), ("typing", "Optional")]) :=
  (autotype_C4_optional_param_rules _ [] "x" "x" none (some (.name "None")) rfl).1
    [⟨"y", "m", "S"⟩] ⟨"x", "m", "T"⟩ [] rfl
    (by intro q hq; simp at hq; simp [hq]) rfl

/-- C5: a parameter outside a lambda with no annotation and a literal `True`
or `False` default is annotated `bool` when the toggle is on, whatever the
configured Optional / named-param rules are (the check precedes them), with
no import requested. -/
theorem autotype_C5_bool_default (st : State) (imps : Imports)
    (nm nm2 v : String) (ann2 dflt2 : Option Expr)
    (hbp : st.bool_param = true) (hlam : st.in_lambda = false)
    (hv : v = "True" ∨ v = "False") :
    leave_Param st imps (Param.mk nm none (some (.name v)))
        (Param.mk nm2 ann2 dflt2) =
      (Param.mk nm2 (some (.name "bool")) dflt2, imps) := by
  have hFT : (("False" : String) == "True") = false := by decide
  rcases hv with h | h <;> subst h <;>
    simp [leave_Param, hlam, hbp, hFT, is_bool_literal_default, Param.annotation,
      Param.default, Param.withAnnotation]

/-- Witness for C5: `flag=True` becomes `flag: bool = True` even though an
Optional rule and a named-param rule for `flag` are configured. -/
theorem autotype_C5_bool_default_witness :
    leave_Param
      { annotate_optionals := [⟨"flag", "m", "T"⟩],
        annotate_named_params := [⟨"flag", "m", "T"⟩], annotate_magics := false,
        annotate_imprecise_magics := false, none_return := false,
        bool_param := true } [] (Param.mk "flag" none (some (.name "True")))
      (Param.mk "flag" none (some (.name "True"))) =
      (Param.mk "flag" (some (.name "bool")) (some (.name "True")), []) :=
  autotype_C5_bool_default _ [] "flag" "flag" "True" none (some (.name "True"))
    rfl rfl (Or.inl rfl)

/-- C7: `NamedParam.make` splits `NAME:MODULE.TYPE` on the colon and on the
LAST dot of the type path — `a:b.C ↦ (a, b, C)`, `a:b.c.D ↦ (a, b.c, D)` —
and an input containing no colon fails at construction time. -/
theorem autotype_C7_rule_parsing :
    NamedParam.make "a:b.C" = some ⟨"a", "b", "C"⟩ ∧
    NamedParam.make "a:b.c.D" = some ⟨"a", "b.c", "D"⟩ ∧
    ∀ s : String, ':' ∉ s.toList → NamedParam.make s = none :=
  ⟨by rfl, by rfl, fun s h => make_of_no_colon s h⟩

/-- Witness for C7: `a.b` has no colon and fails to parse. -/
theorem autotype_C7_rule_parsing_witness :
    ':' ∉ "a.b".toList ∧ NamedParam.make "a.b" = none :=
  ⟨by decide, autotype_C7_rule_parsing.2.2 "a.b" (by decide)⟩

/-- C8 as stated is false: it says an input with more than one colon (and a
dot in its type-path) parses successfully with name = text before the first
colon, but `split(":")` splits on EVERY colon and the 2-tuple unpacking then
raises — `a:b:c.D` fails to parse. -/
theorem autotype_C8_counterexample : NamedParam.make "a:b:c.D" = none := by rfl

/-- C8 amended: parsing fails in exactly three cases — no colon, more than
one colon (both: colon count ≠ 1), or no dot in the type path after the
colon — and succeeds on every other input, with name = the text before the
unique colon. -/
theorem autotype_C8_failure_characterization :
    (∀ s : String, s.toList.count ':' ≠ 1 → NamedParam.make s = none)
    ∧ (∀ pre post : List Char, ':' ∉ pre → ':' ∉ post →
        (('.' ∉ post → NamedParam.make (String.mk (pre ++ ':' :: post)) = none)
         ∧ ('.' ∈ post → ∃ r, NamedParam.make (String.mk (pre ++ ':' :: post)) = some r ∧
             r.name = String.mk pre))) :=
  ⟨make_of_count_ne_one, fun pre post h1 h2 =>
    ⟨make_one_colon_no_dot pre post h1 h2, make_one_colon_dot pre post h1 h2⟩⟩

/-- Witness for C8 amended: zero colons fail, a dotless type path fails, one
colon with a dotted type path succeeds with the name taken before the colon. -/
theorem autotype_C8_failure_characterization_witness :
    NamedParam.make "ab" = none ∧ NamedParam.make "a:bC" = none ∧
    ∃ r, NamedParam.make "a:b.C" = some r ∧ r.name = "a" :=
  ⟨autotype_C8_failure_characterization.1 "ab" (by decide),
   (autotype_C8_failure_characterization.2 ['a'] ['b', 'C'] (by decide) (by decide)).1
     (by decide),
   (autotype_C8_failure_characterization.2 ['a'] ['b', '.', 'C'] (by decide)
     (by decide)).2 (by decide)⟩

/-- C9: a malformed rule string in either rule list makes construction fail
(`AutotypeCommand.init = none`), so a whole run produces no output for ANY
input tree — no partially transformed output exists. -/
theorem autotype_C9_malformed_fails_fast (ao anp : Option (List String))
    (am aim nr bp : Bool) (l : List String) (s : String)
    (hs : NamedParam.make s = none) (hmem : s ∈ l) :
    (ao = some l →
      AutotypeCommand.init ao anp am aim nr bp = none ∧
      ∀ tree, run_codemod ao anp am aim nr bp tree = none)
    ∧ (anp = some l →
      AutotypeCommand.init ao anp am aim nr bp = none ∧
      ∀ tree, run_codemod ao anp am aim nr bp tree = none) := by
  have hbad : parse_params l = none := parse_params_of_bad l s hmem hs
  rcases l with _ | ⟨a, rest⟩
  · cases hmem
  constructor
  · rintro rfl
    have hinit : AutotypeCommand.init (some (a :: rest)) anp am aim nr bp = none := by
      simp only [AutotypeCommand.init, hbad]
    exact ⟨hinit, fun tree => by simp only [run_codemod, hinit]⟩
  · rintro rfl
    have hinit : AutotypeCommand.init ao (some (a :: rest)) am aim nr bp = none := by
      simp only [AutotypeCommand.init, hbad]
      rcases ao with _ | ⟨_ | ⟨b, brest⟩⟩ <;> simp
    exact ⟨hinit, fun tree => by simp only [run_codemod, hinit]⟩

theorem run_codemod_some (ao anp : Option (List String)) (am aim nr bp : Bool)
    (st : State) (h : AutotypeCommand.init ao anp am aim nr bp = some st)
    (tree : List Stmt) :
    run_codemod ao anp am aim nr bp tree =
      some ((visitStmts st [] tree).1, (visitStmts st [] tree).2.2) := by
  unfold run_codemod
  rw [h]

theorem run_codemod_none (ao anp : Option (List String)) (am aim nr bp : Bool)
    (h : AutotypeCommand.init ao anp am aim nr bp = none) (tree : List Stmt) :
    run_codemod ao anp am aim nr bp tree = none := by
  unfold run_codemod
  rw [h]

/-- C3: the engine is idempotent.  For every initial state (configuration)
and every tree, traversing the first pass's output from the same initial
state reproduces that output exactly (and even re-runs the state evolution
identically); at the whole-invocation level, a successful run re-applied to
its own output tree returns that tree unchanged. -/
theorem autotype_C3_idempotent :
    (∀ (st : State) (m : List Stmt) (i1 i2 : Imports),
      (visitStmts st i2 (visitStmts st i1 m).1).1 = (visitStmts st i1 m).1 ∧
      (visitStmts st i2 (visitStmts st i1 m).1).2.1 = (visitStmts st i1 m).2.1)
    ∧ (∀ (ao anp : Option (List String)) (am aim nr bp : Bool) (m t : List Stmt)
        (imps : Imports),
        run_codemod ao anp am aim nr bp m = some (t, imps) →
        ∃ imps2, run_codemod ao anp am aim nr bp t = some (t, imps2)) := by
  refine ⟨fun st m i1 i2 => visitStmts_idem m st i1 i2, ?_⟩
  intro ao anp am aim nr bp m t imps h
  rcases hinit : AutotypeCommand.init ao anp am aim nr bp with _ | st
  · rw [run_codemod_none ao anp am aim nr bp hinit m] at h
    cases h
  · rw [run_codemod_some ao anp am aim nr bp st hinit m] at h
    rw [Option.some.injEq, Prod.mk.injEq] at h
    obtain ⟨ht, -⟩ := h
    subst ht
    refine ⟨(visitStmts st [] (visitStmts st [] m).1).2.2, ?_⟩
    rw [run_codemod_some ao anp am aim nr bp st hinit ((visitStmts st [] m).1),
      (visitStmts_idem m st [] []).1]

/-- Witness for C3: a bare-`None`-return run annotates `def f(): pass` once,
and re-running the codemod on the annotated output returns it unchanged. -/
theorem autotype_C3_idempotent_witness :
    ∃ imps2, run_codemod none none false false true false
        [.functionDef "f" [] (some (.name "None")) [.exprS (.name "pass")]] =
      some ([.functionDef "f" [] (some (.name "None"))
        [.exprS (.name "pass")]], imps2) :=
  autotype_C3_idempotent.2 none none false false true false
    [.functionDef "f" [] none [.exprS (.name "pass")]]
    [.functionDef "f" [] (some (.name "None")) [.exprS (.name "pass")]] []
    (by rfl)

/-- C6: a value-returning return, a raise and a yield each set exactly their
own flag on the innermost (top) frame only, a bare return sets nothing; a
whole nested `FunctionDef` subtree leaves the enclosing stacks exactly as
they were (its facts stay in its own popped frame), while a compound
statement (loop/conditional/try) pushes no frame — it only ever writes the
current top frame, leaving tails and lengths intact. -/
theorem autotype_C6_flag_attribution :
    (∀ (st : State) (e : Expr),
      visit_Return st (some e) =
        { st with seen_return_statement := setTop st.seen_return_statement true })
    ∧ (∀ st : State, visit_Return st none = st)
    ∧ (∀ st : State,
      visit_Raise st =
        { st with seen_raise_statement := setTop st.seen_raise_statement true })
    ∧ (∀ st : State,
      visit_Yield st = { st with seen_yield := setTop st.seen_yield true })
    ∧ (∀ (b v : Bool) (t : List Bool), setTop (b :: t) v = v :: t)
    ∧ (∀ (nm : String) (ps : List Param) (ret : Option Expr) (body : List Stmt)
        (st : State) (imps : Imports),
        (visitStmt st imps (.functionDef nm ps ret body)).2.1.seen_return_statement =
          st.seen_return_statement ∧
        (visitStmt st imps (.functionDef nm ps ret body)).2.1.seen_raise_statement =
          st.seen_raise_statement ∧
        (visitStmt st imps (.functionDef nm ps ret body)).2.1.seen_yield =
          st.seen_yield)
    ∧ (∀ (es : List Expr) (ss : List Stmt) (st : State) (imps : Imports),
        ((visitStmt st imps (.compound es ss)).2.1.seen_return_statement.tail =
            st.seen_return_statement.tail ∧
          (visitStmt st imps (.compound es ss)).2.1.seen_return_statement.length =
            st.seen_return_statement.length) ∧
        ((visitStmt st imps (.compound es ss)).2.1.seen_raise_statement.tail =
            st.seen_raise_statement.tail ∧
          (visitStmt st imps (.compound es ss)).2.1.seen_raise_statement.length =
            st.seen_raise_statement.length) ∧
        ((visitStmt st imps (.compound es ss)).2.1.seen_yield.tail =
            st.seen_yield.tail ∧
          (visitStmt st imps (.compound es ss)).2.1.seen_yield.length =
            st.seen_yield.length)) := by
  refine ⟨fun st e => rfl, fun st => rfl, fun st => rfl, fun st => rfl,
    fun b v t => rfl, ?_, ?_⟩
  · intro nm ps ret body st imps
    obtain ⟨L, h⟩ := visitStmt_functionDef_stacks nm ps ret body st imps
      st.seen_return_statement st.seen_raise_statement st.seen_yield
    rw [withStacks_self] at h
    exact ⟨by rw [h]; rfl, by rw [h]; rfl, by rw [h]; rfl⟩
  · intro es ss st imps
    obtain ⟨N, L, I, r, y, z, h⟩ := visitStmt_frame (.compound es ss) st imps
    have h' := h st.seen_return_statement st.seen_raise_statement st.seen_yield
    rw [withStacks_self] at h'
    rw [h']
    simp [withStacks, orTop_tail, orTop_length]

/-- C10: the three flag stacks are seeded with one frame, move in lockstep
and stay balanced: a function entry pushes exactly one `false` frame on each,
a function exit pops exactly one frame from each whatever annotation decision
is taken, a construction-produced state has the singleton seed stacks, a full
traversal started on singleton stacks ends with singleton stacks, and the
output tree and the import trace do not depend on the seed frames' values
(the seed is never consulted). -/
theorem autotype_C10_stack_discipline :
    (∀ st : State,
      (visit_FunctionDef st).seen_return_statement =
        false :: st.seen_return_statement ∧
      (visit_FunctionDef st).seen_raise_statement =
        false :: st.seen_raise_statement ∧
      (visit_FunctionDef st).seen_yield = false :: st.seen_yield)
    ∧ (∀ (st : State) (imps : Imports) (nm : String) (orig : Option Expr)
        (ps : List Param) (rt : Option Expr) (bd : List Stmt),
        (leave_FunctionDef st imps nm orig ps rt bd).2.1.seen_return_statement =
          st.seen_return_statement.tail ∧
        (leave_FunctionDef st imps nm orig ps rt bd).2.1.seen_raise_statement =
          st.seen_raise_statement.tail ∧
        (leave_FunctionDef st imps nm orig ps rt bd).2.1.seen_yield =
          st.seen_yield.tail)
    ∧ (∀ (ao anp : Option (List String)) (am aim nr bp : Bool) (st : State),
        AutotypeCommand.init ao anp am aim nr bp = some st →
        st.seen_return_statement = [false] ∧ st.seen_raise_statement = [false] ∧
        st.seen_yield = [false])
    ∧ (∀ (m : List Stmt) (cfg : State) (imps : Imports) (s1 s2 s3 : List Bool),
        (visitStmts (withStacks cfg s1 s2 s3) imps m).2.1.seen_return_statement.length
            = s1.length ∧
        (visitStmts (withStacks cfg s1 s2 s3) imps m).2.1.seen_raise_statement.length
            = s2.length ∧
        (visitStmts (withStacks cfg s1 s2 s3) imps m).2.1.seen_yield.length =
          s3.length)
    ∧ (∀ (m : List Stmt) (cfg : State) (imps : Imports) (b1 b2 b3 : Bool),
        (∃ t1 t2 t3 : Bool,
          (visitStmts (withStacks cfg [b1] [b2] [b3]) imps m).2.1.seen_return_statement
              = [t1] ∧
          (visitStmts (withStacks cfg [b1] [b2] [b3]) imps m).2.1.seen_raise_statement
              = [t2] ∧
          (visitStmts (withStacks cfg [b1] [b2] [b3]) imps m).2.1.seen_yield = [t3]) ∧
        (visitStmts (withStacks cfg [b1] [b2] [b3]) imps m).1 =
          (visitStmts (withStacks cfg [false] [false] [false]) imps m).1 ∧
        (visitStmts (withStacks cfg [b1] [b2] [b3]) imps m).2.2 =
          (visitStmts (withStacks cfg [false] [false] [false]) imps m).2.2) := by
  refine ⟨fun st => ⟨rfl, rfl, rfl⟩, ?_, ?_, ?_, ?_⟩
  · intro st imps nm orig ps rt bd
    refine ⟨?_, ?_, ?_⟩ <;>
      (simp only [leave_FunctionDef]
       repeat' split
       all_goals rfl)
  · intro ao anp am aim nr bp st h
    simp only [AutotypeCommand.init] at h
    split at h
    · rw [Option.some.injEq] at h
      subst h
      exact ⟨rfl, rfl, rfl⟩
    · cases h
  · intro m cfg imps s1 s2 s3
    obtain ⟨N, L, I, r, y, z, h⟩ := visitStmts_frame m cfg imps
    rw [h s1 s2 s3]
    simp [withStacks, orTop_length]
  · intro m cfg imps b1 b2 b3
    obtain ⟨N, L, I, r, y, z, h⟩ := visitStmts_frame m cfg imps
    refine ⟨⟨b1 || r, b2 || y, b3 || z, ?_, ?_, ?_⟩, ?_, ?_⟩
    · rw [h [b1] [b2] [b3]]
      simp [withStacks, orTop]
    · rw [h [b1] [b2] [b3]]
      simp [withStacks, orTop]
    · rw [h [b1] [b2] [b3]]
      simp [withStacks, orTop]
    · rw [h [b1] [b2] [b3], h [false] [false] [false]]
    · rw [h [b1] [b2] [b3], h [false] [false] [false]]

/-- Witness for C10: construction with no options yields the seeded
singleton stacks. -/
theorem autotype_C10_stack_discipline_witness :
    ({ annotate_optionals := [], annotate_named_params := [],
       annotate_magics := false, annotate_imprecise_magics := false,
       none_return := false, bool_param := false } : State).seen_return_statement
        = [false] ∧
    ({ annotate_optionals := [], annotate_named_params := [],
       annotate_magics := false, annotate_imprecise_magics := false,
       none_return := false, bool_param := false } : State).seen_raise_statement
        = [false] ∧
    ({ annotate_optionals := [], annotate_named_params := [],
       annotate_magics := false, annotate_imprecise_magics := false,
       none_return := false, bool_param := false } : State).seen_yield = [false] :=
  autotype_C10_stack_discipline.2.2.1 none none false false false false _ rfl

/-- Witness for C9: the dotless, colonless rule `badrule` aborts construction
and the whole run on the empty module. -/
theorem autotype_C9_malformed_fails_fast_witness :
    AutotypeCommand.init (some ["badrule"]) none false false false false = none ∧
    run_codemod (some ["badrule"]) none false false false false [] = none :=
  ⟨((autotype_C9_malformed_fails_fast (some ["badrule"]) none false false false false
      ["badrule"] "badrule" (by rfl) (by simp)).1 rfl).1,
   ((autotype_C9_malformed_fails_fast (some ["badrule"]) none false false false false
      ["badrule"] "badrule" (by rfl) (by simp)).1 rfl).2 []⟩

end Autotyping
